import Mathlib

/-!
Verification of `database_utility.py` (MovieDatabaseUtility).

The Python program parses `movies.sql` / `actors.sql` with two fixed regular
expressions, loads the extracted rows into an SQLite database (skipping rows
that raise `sqlite3.IntegrityError`, with a printed warning), and answers a
fixed set of read-only queries.

Modelling decisions, each taken from the source:

* Statements are modelled as `List Char`; a source file is a list of
  statements.  Both extraction patterns are deterministic: every bounded
  group (`[^']+`, `[^']*?`, `\d+`, `[0-9.]+`, `\s*`) is delimited by a
  character the group itself cannot contain, so the regex engine's
  backtracking never produces a second alignment and a match attempt at a
  given position is equivalent to the recursive-descent parsers written
  below.  A match can moreover only start at an occurrence of the pattern's
  leading `INSERT INTO <table> VALUES(` literal.  `re.finditer` scans every
  position of the text, taking non-overlapping matches; `scanActors` /
  `scanMovies` model that scan over a statement's text.  The loaders use
  `List.filterMap` of the position-0 parser, which agrees with the scan on
  every statement this file reasons about: statements whose parse succeeds at
  position 0 (the match covers the whole statement, so later starts are
  skipped as overlapping), and statements hypothesised to contain the anchor
  literal only at position 0 whose position-0 parse fails (no start at all).
* `REAL` values are modelled as `Rat`.  The numeric groups are `[0-9.]+`
  decimal literals, which Python's `float` converts exactly enough for every
  comparison made by the program on such literals.  (On a token with two dots,
  `float` would raise an uncaught `ValueError`; the model returns `none`
  there.  No statement considered in this development contains such a token.)
* The code never executes `PRAGMA foreign_keys = ON`, and Python's `sqlite3`
  leaves SQLite's default (OFF) in place, so the `FOREIGN KEY` clause on
  `actors.movie_id` is *not* enforced: the only `IntegrityError` either
  insert loop can raise is a duplicate `INTEGER PRIMARY KEY`.  The insert
  functions below reflect that.
* `id INTEGER PRIMARY KEY` makes row ids unique, so `GROUP BY m.id` yields one
  group per movie row and `COUNT(a.id)` over the `LEFT JOIN` is the number of
  actor rows whose `movie_id` equals the movie's id (0 when none).
* `ORDER BY ... DESC LIMIT k` leaves the order of ties unspecified; it is
  modelled by a (stable) insertion sort, one materialisation SQLite may
  produce.
* SQLite's `LIKE` is case-insensitive for the ASCII letters A-Z and treats
  `%`/`_` in the pattern as wildcards; `likeMatch` below implements exactly
  that, and `query_movies_by_director` applies it to `'%' ++ director ++ '%'`
  as the code does.
-/

namespace MovieDB

/-! ### Data model (the two table schemas) -/

structure MovieRow where
  id : Nat
  imdb_id : String
  title : String
  director : String
  year : Nat
  rating : String
  genres : String
  runtime : Nat
  country : String
  language : String
  imdb_score : Rat
  imdb_votes : Nat
  metacritic_score : Rat
deriving DecidableEq, Repr

structure ActorRow where
  id : Nat
  movie_id : Nat
  imdb_id : String
  name : String
deriving DecidableEq, Repr

structure DB where
  movies : List MovieRow
  actors : List ActorRow
deriving DecidableEq, Repr

def DB.empty : DB := ⟨[], []⟩

/-! ### Character-level parsing primitives -/

/-- Consume an exact literal; `none` when the input does not start with it. -/
def dropLit : List Char → List Char → Option (List Char)
  | [], s => some s
  | _ :: _, [] => none
  | c :: l, d :: s => if c = d then dropLit l s else none

def isDigitChar (c : Char) : Bool := c.isDigit

def digitsVal (ds : List Char) : Nat :=
  ds.foldl (fun n c => 10 * n + (c.toNat - 48)) 0

/-- Greedy `(\d+)`: at least one digit, as many as possible. -/
def parseDigits (s : List Char) : Option (Nat × List Char) :=
  let ds := s.takeWhile isDigitChar
  if ds.isEmpty then none else some (digitsVal ds, s.dropWhile isDigitChar)

def notQuote (c : Char) : Bool := !(c = '\'')

/-- `([^']+)'`: a nonempty run of non-quote characters followed by the closing
quote (the opening quote has already been consumed as part of a literal). -/
def parseQuotedPlus (s : List Char) : Option (List Char × List Char) :=
  let body := s.takeWhile notQuote
  match s.dropWhile notQuote with
  | '\'' :: r => if body.isEmpty then none else some (body, r)
  | _ => none

/-- `([^']*?)'`: like `parseQuotedPlus` but the body may be empty.  The lazy
quantifier is irrelevant: the body cannot contain a quote, so it always
extends exactly to the next quote. -/
def parseQuotedStar (s : List Char) : Option (List Char × List Char) :=
  let body := s.takeWhile notQuote
  match s.dropWhile notQuote with
  | '\'' :: r => some (body, r)
  | _ => none

/-- Python's `\s` on the ASCII range (the files are ASCII). -/
def pySpace (c : Char) : Bool :=
  (c = ' ') || (c = '\t') || (c = '\n') || (c = '\r') || (c = '\x0b') || (c = '\x0c')

def skipSpaces (s : List Char) : List Char := s.dropWhile pySpace

def isNumChar (c : Char) : Bool := c.isDigit || (c = '.')

/-- Value of a `[0-9.]+` token as Python's `float` computes it; `none` when
`float` would raise (more than one dot, or no digit at all). -/
def decimalVal (ds : List Char) : Option Rat :=
  if ds.count '.' = 0 then
    if ds.isEmpty then none else some (digitsVal ds)
  else if ds.count '.' = 1 then
    let ip := ds.takeWhile notDot
    let fp := (ds.dropWhile notDot).drop 1
    if ip.isEmpty && fp.isEmpty then none
    else some ((digitsVal ip : Rat) + (digitsVal fp : Rat) / ((10 : Rat) ^ fp.length))
  else none
where notDot (c : Char) : Bool := !(c = '.')

/-- Greedy `([0-9.]+)` followed by `float` conversion. -/
def parseNumber (s : List Char) : Option (Rat × List Char) :=
  let ds := s.takeWhile isNumChar
  if ds.isEmpty then none else
    match decimalVal ds with
    | some q => some (q, s.dropWhile isNumChar)
    | none => none

/-! ### The two extraction patterns -/

def actorsPre : List Char := "INSERT INTO actors VALUES(".data

def moviesPre : List Char := "INSERT INTO movies VALUES(".data

/-- `INSERT INTO actors VALUES\((\d+),(\d+),'([^']+)','([^']+)'\)` applied to
one statement.  Trailing text after the final `)` is ignored, as a regex match
is a prefix match. -/
def parseActorStmt (s : List Char) : Option ActorRow := do
  let r ← dropLit actorsPre s
  let (idv, r) ← parseDigits r
  let r ← dropLit [','] r
  let (mid, r) ← parseDigits r
  let r ← dropLit [',', '\''] r
  let (imdb, r) ← parseQuotedPlus r
  let r ← dropLit [',', '\''] r
  let (name, r) ← parseQuotedPlus r
  let _ ← dropLit [')'] r
  pure ⟨idv, mid, String.mk imdb, String.mk name⟩

/-- Movie pattern, stage 1: `(\d+),'([^']+)','([^']*?)','([^']*?)'`. -/
def parseMovieA (s : List Char) :
    Option (Nat × List Char × List Char × List Char × List Char) := do
  let r ← dropLit moviesPre s
  let (idv, r) ← parseDigits r
  let r ← dropLit [',', '\''] r
  let (imdb, r) ← parseQuotedPlus r
  let r ← dropLit [',', '\''] r
  let (title, r) ← parseQuotedStar r
  let r ← dropLit [',', '\''] r
  let (director, r) ← parseQuotedStar r
  pure (idv, imdb, title, director, r)

/-- Movie pattern, stage 2: `\s*,(\d+),'([^']*?)','([^']*?)'`. -/
def parseMovieB (s : List Char) :
    Option (Nat × List Char × List Char × List Char) := do
  let r ← dropLit [','] (skipSpaces s)
  let (n, r) ← parseDigits r
  let r ← dropLit [',', '\''] r
  let (f1, r) ← parseQuotedStar r
  let r ← dropLit [',', '\''] r
  let (f2, r) ← parseQuotedStar r
  pure (n, f1, f2, r)

/-- Movie pattern, stage 3: `\s*,([0-9.]+),(\d+),([0-9.]+)\)`. -/
def parseMovieC (s : List Char) : Option (Rat × Nat × Rat) := do
  let r ← dropLit [','] (skipSpaces s)
  let (score, r) ← parseNumber r
  let r ← dropLit [','] r
  let (votes, r) ← parseDigits r
  let r ← dropLit [','] r
  let (msc, r) ← parseNumber r
  let _ ← dropLit [')'] r
  pure (score, votes, msc)

/-- The movie pattern
`INSERT INTO movies VALUES\((\d+),'([^']+)','([^']*?)','([^']*?)'\s*,(\d+),'([^']*?)','([^']*?)'\s*,(\d+),'([^']*?)','([^']*?)'\s*,([0-9.]+),(\d+),([0-9.]+)\)`
applied to one statement: stage 1, then stage 2 twice (year/rating/genres and
runtime/country/language), then stage 3. -/
def parseMovieStmt (s : List Char) : Option MovieRow := do
  let (idv, imdb, title, director, r) ← parseMovieA s
  let (year, rating, genres, r) ← parseMovieB r
  let (runtime, country, language, r) ← parseMovieB r
  let (score, votes, msc) ← parseMovieC r
  pure ⟨idv, String.mk imdb, String.mk title, String.mk director, year,
        String.mk rating, String.mk genres, runtime, String.mk country,
        String.mk language, score, votes, msc⟩

/-! ### Loader (`_insert_movies`, `_insert_actors`, `_initialize_database`,
`_parse_and_insert_sql_files`, `__init__`) -/

structure LoadState where
  db : DB
  inserted : Nat
  warnings : Nat
deriving DecidableEq, Repr

/-- One `INSERT INTO movies ...` execution.  A duplicate `id` raises
`IntegrityError` (UNIQUE on the primary key): the row is skipped and a warning
is printed; otherwise the row is appended. -/
def insertMovie (st : LoadState) (m : MovieRow) : LoadState :=
  if st.db.movies.any (fun m2 => m2.id == m.id) then
    { st with warnings := st.warnings + 1 }
  else
    { st with db := { st.db with movies := st.db.movies ++ [m] },
              inserted := st.inserted + 1 }

/-- One `INSERT INTO actors ...` execution.  Foreign keys are not enforced
(see the header comment), so only a duplicate primary key is an error. -/
def insertActor (st : LoadState) (a : ActorRow) : LoadState :=
  if st.db.actors.any (fun a2 => a2.id == a.id) then
    { st with warnings := st.warnings + 1 }
  else
    { st with db := { st.db with actors := st.db.actors ++ [a] },
              inserted := st.inserted + 1 }

def insert_movies (stmts : List (List Char)) (db : DB) : LoadState :=
  (stmts.filterMap parseMovieStmt).foldl insertMovie ⟨db, 0, 0⟩

def insert_actors (stmts : List (List Char)) (db : DB) : LoadState :=
  (stmts.filterMap parseActorStmt).foldl insertActor ⟨db, 0, 0⟩

/-- The relevant state outside the class: the contents of the storage file and
the two (possibly absent) input files. -/
structure FS where
  dbFile : DB
  actorsFile : Option (List (List Char))
  moviesFile : Option (List (List Char))
deriving DecidableEq

/-- `_initialize_database`: `DROP TABLE IF EXISTS` both tables, then
`CREATE TABLE` both — the storage file now holds two empty tables whatever it
held before. -/
def initialize_database (fs : FS) : FS := { fs with dbFile := DB.empty }

/-- `_parse_and_insert_sql_files`: check that both inputs exist (actors first,
as in the code), then insert movies and then actors.  Returns the final file
state together with the success or the raised `FileNotFoundError`. -/
def parse_and_insert_sql_files (fs : FS) : FS × Except String Unit :=
  match fs.actorsFile with
  | none => (fs, Except.error "actors.sql not found")
  | some as =>
    match fs.moviesFile with
    | none => (fs, Except.error "movies.sql not found")
    | some ms =>
      let st1 := insert_movies ms fs.dbFile
      let st2 := insert_actors as st1.db
      ({ fs with dbFile := st2.db }, Except.ok ())

/-- `__init__`: initialize (destructively) and then parse-and-insert. -/
def MovieDatabaseUtility.init (fs : FS) : FS × Except String Unit :=
  parse_and_insert_sql_files (initialize_database fs)

/-! ### Query layer -/

/-- `COUNT(a.id)` over the `LEFT JOIN` grouped by `m.id`. -/
def actorCount (db : DB) (m : MovieRow) : Nat :=
  (db.actors.filter (fun a => a.movie_id == m.id)).length

def byRuntimeDesc (a b : MovieRow) : Prop := b.runtime ≤ a.runtime

instance : DecidableRel byRuntimeDesc := fun _ _ => Nat.decLe _ _

instance : IsTotal MovieRow byRuntimeDesc :=
  ⟨fun a b => le_total b.runtime a.runtime⟩

instance : IsTrans MovieRow byRuntimeDesc :=
  ⟨fun _ _ _ h1 h2 => le_trans h2 h1⟩

def byCountDesc (db : DB) (a b : MovieRow) : Prop :=
  actorCount db b ≤ actorCount db a

instance (db : DB) : DecidableRel (byCountDesc db) := fun _ _ => Nat.decLe _ _

instance (db : DB) : IsTotal MovieRow (byCountDesc db) :=
  ⟨fun a b => le_total (actorCount db b) (actorCount db a)⟩

instance (db : DB) : IsTrans MovieRow (byCountDesc db) :=
  ⟨fun _ _ _ h1 h2 => le_trans h2 h1⟩

def byScoreDesc (a b : MovieRow) : Prop := b.imdb_score ≤ a.imdb_score

instance : DecidableRel byScoreDesc := fun a b =>
  inferInstanceAs (Decidable (b.imdb_score ≤ a.imdb_score))

instance : IsTotal MovieRow byScoreDesc :=
  ⟨fun a b => le_total b.imdb_score a.imdb_score⟩

instance : IsTrans MovieRow byScoreDesc :=
  ⟨fun _ _ _ h1 h2 => le_trans h2 h1⟩

/-- The dictionary built by `get_longest_running_movie`. -/
structure LongestOut where
  title : String
  runtime : Nat
  year : Nat
  director : String
  imdb_score : Rat
  actor_count : Nat
  full_details : MovieRow
deriving DecidableEq, Repr

/-- `ORDER BY m.runtime DESC LIMIT 1` with the actor count attached;
`fetchone` of no rows gives the empty dict, modelled `none`. -/
def get_longest_running_movie (db : DB) : Option LongestOut :=
  match (List.insertionSort byRuntimeDesc db.movies).head? with
  | none => none
  | some m => some ⟨m.title, m.runtime, m.year, m.director, m.imdb_score,
                    actorCount db m, m⟩

structure ActorOut where
  id : Nat
  imdb_id : String
  name : String
deriving DecidableEq, Repr

/-- Lexicographic order on code points; on UTF-8 encoded text this is exactly
SQLite's default BINARY collation byte order. -/
def lexLe : List Char → List Char → Bool
  | [], _ => true
  | _ :: _, [] => false
  | c :: l, d :: r =>
    if c.toNat < d.toNat then true
    else if d.toNat < c.toNat then false
    else lexLe l r

theorem lexLe_total : ∀ a b, lexLe a b = true ∨ lexLe b a = true := by
  intro a
  induction a with
  | nil => intro b; exact Or.inl rfl
  | cons c l ih =>
    intro b
    cases b with
    | nil => exact Or.inr rfl
    | cons d r =>
      by_cases h1 : c.toNat < d.toNat
      · exact Or.inl (by simp [lexLe, h1])
      · by_cases h2 : d.toNat < c.toNat
        · exact Or.inr (by simp [lexLe, h2])
        · rcases ih r with h | h
          · exact Or.inl (by simp [lexLe, h1, h2, h])
          · exact Or.inr (by simp [lexLe, h1, h2, h])

theorem lexLe_trans :
    ∀ a b c, lexLe a b = true → lexLe b c = true → lexLe a c = true := by
  intro a
  induction a with
  | nil => intro b c _ _; rfl
  | cons x l ih =>
    intro b c hab hbc
    cases b with
    | nil => simp [lexLe] at hab
    | cons y r =>
      cases c with
      | nil => simp [lexLe] at hbc
      | cons z s =>
        by_cases hxy : x.toNat < y.toNat
        · by_cases hyz : y.toNat < z.toNat
          · simp [lexLe, Nat.lt_trans hxy hyz]
          · by_cases hzy : z.toNat < y.toNat
            · simp [lexLe, hyz, hzy] at hbc
            · have hq : y.toNat = z.toNat := Nat.le_antisymm
                (Nat.le_of_not_lt hzy) (Nat.le_of_not_lt hyz)
              simp [lexLe, hq ▸ hxy]
        · by_cases hyx : y.toNat < x.toNat
          · simp [lexLe, hxy, hyx] at hab
          · have hp : x.toNat = y.toNat := Nat.le_antisymm
              (Nat.le_of_not_lt hyx) (Nat.le_of_not_lt hxy)
            simp [lexLe, hxy, hyx] at hab
            by_cases hyz : y.toNat < z.toNat
            · simp [lexLe, hp ▸ hyz]
            · by_cases hzy : z.toNat < y.toNat
              · simp [lexLe, hyz, hzy] at hbc
              · simp [lexLe, hyz, hzy] at hbc
                simp [lexLe, hp ▸ hyz, hp ▸ hzy, ih r s hab hbc]

def byNameAsc (a b : ActorOut) : Prop := lexLe a.name.data b.name.data = true

instance : DecidableRel byNameAsc := fun a b =>
  inferInstanceAs (Decidable (lexLe a.name.data b.name.data = true))

instance : IsTotal ActorOut byNameAsc :=
  ⟨fun a b => lexLe_total a.name.data b.name.data⟩

instance : IsTrans ActorOut byNameAsc :=
  ⟨fun _ _ _ h1 h2 => lexLe_trans _ _ _ h1 h2⟩

/-- The rows of `SELECT id, imdb_id, name FROM actors WHERE movie_id = ?`
in table order (before the `ORDER BY name`). -/
def actorsOf (db : DB) (mid : Nat) : List ActorOut :=
  (db.actors.filter (fun a => a.movie_id == mid)).map
    (fun a => ⟨a.id, a.imdb_id, a.name⟩)

structure MostActorsOut where
  title : String
  actor_count : Nat
  year : Nat
  director : String
  imdb_score : Rat
  actors : List ActorOut
  full_details : MovieRow
deriving DecidableEq, Repr

/-- `ORDER BY actor_count DESC LIMIT 1`, then that movie's actors
`ORDER BY name`. -/
def get_movie_with_most_actors (db : DB) : Option MostActorsOut :=
  match (List.insertionSort (byCountDesc db) db.movies).head? with
  | none => none
  | some m => some ⟨m.title, actorCount db m, m.year, m.director, m.imdb_score,
                    List.insertionSort byNameAsc (actorsOf db m.id), m⟩

structure MovieSummary where
  title : String
  imdb_score : Rat
  year : Nat
  director : String
  actors_count : Nat
deriving DecidableEq, Repr

def summaryOf (db : DB) (m : MovieRow) : MovieSummary :=
  ⟨m.title, m.imdb_score, m.year, m.director, actorCount db m⟩

/-- `ORDER BY m.imdb_score DESC LIMIT top_n`. -/
def topByScore (db : DB) (n : Nat) : List MovieRow :=
  (List.insertionSort byScoreDesc db.movies).take n

/-- One step of `rating_breakdown[rating].append(...)` (creating the key at
the end of the dict when absent, as Python dicts preserve insertion order). -/
def bumpCat (d : List (String × List MovieSummary)) (r : String)
    (s : MovieSummary) : List (String × List MovieSummary) :=
  match d with
  | [] => [(r, [s])]
  | (k, v) :: rest =>
    if k = r then (k, v ++ [s]) :: rest else (k, v) :: bumpCat rest r s

/-- One step of `rating_distribution[rating] += 1`. -/
def bumpDist (d : List (String × Nat)) (r : String) : List (String × Nat) :=
  match d with
  | [] => [(r, 1)]
  | (k, n) :: rest =>
    if k = r then (k, n + 1) :: rest else (k, n) :: bumpDist rest r

/-- Dictionary lookup. -/
def lookupKey {α : Type} (d : List (String × α)) (r : String) : Option α :=
  match d with
  | [] => none
  | (k, v) :: rest => if k = r then some v else lookupKey rest r

structure TopOut where
  total_movies_in_top : Nat
  rating_categories : List (String × List MovieSummary)
  rating_distribution : List (String × Nat)
deriving DecidableEq, Repr

def ratingCats (db : DB) (tops : List MovieRow) :
    List (String × List MovieSummary) :=
  tops.foldl (fun d m => bumpCat d m.rating (summaryOf db m)) []

def ratingDist (tops : List MovieRow) : List (String × Nat) :=
  tops.foldl (fun d m => bumpDist d m.rating) []

/-- `get_top_movies_by_rating_breakdown`: the top-`n` list; if it is empty the
empty dict is returned (`none`), otherwise the grouping loop runs. -/
def get_top_movies_by_rating_breakdown (db : DB) (top_n : Nat) : Option TopOut :=
  let tops := topByScore db top_n
  if tops.isEmpty then none
  else some ⟨tops.length, ratingCats db tops, ratingDist tops⟩

structure StatsOut where
  total_movies : Nat
  total_actors : Nat
  average_runtime : Rat
  average_imdb_score : Rat
  rating_distribution : List (String × Nat)
  year_min : Option Nat
  year_max : Option Nat
deriving DecidableEq, Repr

/-- `round(x, 2)`.  Python rounds binary floats half-to-even; on the exact
rationals of this model we use `round` (half away from zero on `.5`); no
theorem in this file evaluates `round2` at a half-way point. -/
def round2 (q : Rat) : Rat := ((round (q * 100) : Int) : Rat) / 100

/-- `AVG(...)`: `NULL` (modelled `none`) on an empty table. -/
def sqlAvg (l : List Rat) : Option Rat :=
  match l with
  | [] => none
  | _ => some (l.sum / (l.length : Rat))

def sqlMin (l : List Nat) : Option Nat :=
  match l with
  | [] => none
  | x :: xs => match sqlMin xs with
               | none => some x
               | some y => some (min x y)

def sqlMax (l : List Nat) : Option Nat :=
  match l with
  | [] => none
  | x :: xs => match sqlMax xs with
               | none => some x
               | some y => some (max x y)

def strAsc (a b : String) : Prop := lexLe a.data b.data = true

instance : DecidableRel strAsc := fun a b =>
  inferInstanceAs (Decidable (lexLe a.data b.data = true))

instance : IsTotal String strAsc := ⟨fun a b => lexLe_total a.data b.data⟩

instance : IsTrans String strAsc := ⟨fun _ _ _ h1 h2 => lexLe_trans _ _ _ h1 h2⟩

/-- `SELECT rating, COUNT(*) FROM movies GROUP BY rating ORDER BY rating`. -/
def ratingGroupBy (db : DB) : List (String × Nat) :=
  (List.insertionSort strAsc (db.movies.map (fun m => m.rating)).eraseDups).map
    (fun r => (r, (db.movies.filter (fun m => m.rating == r)).length))

/-- `round(x, 2) if x else 0`: `x` is falsy when `None` (empty table) or
exactly `0`. -/
def avgField (a : Option Rat) : Rat :=
  match a with
  | none => 0
  | some q => if q = 0 then 0 else round2 q

def get_all_stats (db : DB) : StatsOut :=
  { total_movies := db.movies.length
    total_actors := db.actors.length
    average_runtime :=
      avgField (sqlAvg (db.movies.map (fun m => (m.runtime : Rat))))
    average_imdb_score :=
      avgField (sqlAvg (db.movies.map (fun m => m.imdb_score)))
    rating_distribution := ratingGroupBy db
    year_min := sqlMin (db.movies.map (fun m => m.year))
    year_max := sqlMax (db.movies.map (fun m => m.year)) }

/-- ASCII lower-casing, the folding SQLite's default `LIKE` applies. -/
def lcAscii (c : Char) : Char :=
  if 'A' ≤ c ∧ c ≤ 'Z' then Char.ofNat (c.toNat + 32) else c

/-- All suffixes of a string, longest first (ending with `[]`). -/
def suffixes : List Char → List (List Char)
  | [] => [[]]
  | l@(_ :: t) => l :: suffixes t

/-- SQLite `LIKE`: whole-string match, `%` any run (tried as: the rest of the
pattern must match some suffix), `_` any one character, other characters
compared case-insensitively on ASCII. -/
def likeMatch : List Char → List Char → Bool
  | [], s => s.isEmpty
  | c :: p, s =>
    if c = '%' then (suffixes s).any (fun t => likeMatch p t)
    else
      match s with
      | [] => false
      | d :: s2 => (if c = '_' then true else lcAscii c = lcAscii d) &&
                   likeMatch p s2

/-- A returned row: `m.*` plus the `actors_count` column. -/
structure QueryRow where
  row : MovieRow
  actors_count : Nat
deriving DecidableEq, Repr

def byScoreDescQ (a b : QueryRow) : Prop :=
  b.row.imdb_score ≤ a.row.imdb_score

instance : DecidableRel byScoreDescQ := fun a b =>
  inferInstanceAs (Decidable (b.row.imdb_score ≤ a.row.imdb_score))

instance : IsTotal QueryRow byScoreDescQ :=
  ⟨fun a b => le_total b.row.imdb_score a.row.imdb_score⟩

instance : IsTrans QueryRow byScoreDescQ :=
  ⟨fun _ _ _ h1 h2 => le_trans h2 h1⟩

/-- `WHERE m.director LIKE '%' + director + '%' ... ORDER BY imdb_score DESC`. -/
def query_movies_by_director (db : DB) (director : String) : List QueryRow :=
  List.insertionSort byScoreDescQ
    ((db.movies.filter
        (fun m => likeMatch ('%' :: (director.data ++ ['%'])) m.director.data)).map
      (fun m => ⟨m, actorCount db m⟩))

/-- `WHERE m.rating = ? ... ORDER BY imdb_score DESC`. -/
def query_movies_by_rating (db : DB) (rating : String) : List QueryRow :=
  List.insertionSort byScoreDescQ
    ((db.movies.filter (fun m => m.rating == rating)).map
      (fun m => ⟨m, actorCount db m⟩))

/-! ### Lemmas about the parsing primitives -/

theorem dropLit_head_ne {c : Char} {s : List Char} (l : List Char)
    (h : ∀ d, s.head? = some d → ¬ c = d) : dropLit (c :: l) s = none := by
  cases s with
  | nil => rfl
  | cons d s => simp [dropLit, h d rfl]

theorem skipSpaces_of_head {s : List Char}
    (h : ∀ c, s.head? = some c → pySpace c = false) : skipSpaces s = s := by
  cases s with
  | nil => rfl
  | cons c s => simp [skipSpaces, List.dropWhile_cons, h c rfl]

/-! ### Lemmas about sorting -/

theorem insertionSort_head_exists {α : Type} (r : α → α → Prop)
    [DecidableRel r] {l : List α} (h : l ≠ []) :
    ∃ m, (List.insertionSort r l).head? = some m := by
  cases e : List.insertionSort r l with
  | nil =>
    exfalso
    have hp := List.perm_insertionSort r l
    rw [e] at hp
    exact h hp.symm.eq_nil
  | cons a t => exact ⟨a, rfl⟩

theorem head_insertionSort_max {α : Type} (r : α → α → Prop) [DecidableRel r]
    [IsTotal α r] [IsTrans α r] {l : List α} {m : α}
    (h : (List.insertionSort r l).head? = some m) :
    m ∈ l ∧ ∀ x ∈ l, r m x := by
  have hperm := List.perm_insertionSort r l
  have hs := List.sorted_insertionSort r l
  cases e : List.insertionSort r l with
  | nil => rw [e] at h; simp at h
  | cons a t =>
    rw [e] at h hperm hs
    have hm : a = m := by simpa using h
    subst hm
    refine ⟨hperm.subset (List.mem_cons_self a t), ?_⟩
    intro x hx
    have hx2 : x ∈ a :: t := hperm.symm.subset hx
    rcases List.mem_cons.mp hx2 with he | ht
    · subst he
      exact (total_of r x x).elim id id
    · exact List.rel_of_sorted_cons hs x ht

/-! ### Lemmas about the insert loops -/

theorem foldl_insertMovie_fresh :
    ∀ (rows : List MovieRow) (db : DB) (i w : Nat),
      (rows.map (fun m => m.id)).Nodup →
      (∀ m ∈ rows, ∀ m2 ∈ db.movies, ¬ m2.id = m.id) →
      rows.foldl insertMovie ⟨db, i, w⟩ =
        ⟨⟨db.movies ++ rows, db.actors⟩, i + rows.length, w⟩ := by
  intro rows
  induction rows with
  | nil => intro db i w _ _; simp
  | cons m rows ih =>
    intro db i w hnd hfresh
    have hany : db.movies.any (fun m2 => m2.id == m.id) = false := by
      simp only [List.any_eq_false]
      intro m2 hm2
      simpa using hfresh m (by simp) m2 hm2
    have hstep : insertMovie ⟨db, i, w⟩ m =
        ⟨⟨db.movies ++ [m], db.actors⟩, i + 1, w⟩ := by
      simp [insertMovie, hany]
    have hnd' : (∀ x ∈ rows, ¬ x.id = m.id) ∧
        (rows.map (fun m => m.id)).Nodup := by simpa using hnd
    have hnd2 := hnd'.2
    have hfresh2 : ∀ m3 ∈ rows, ∀ m2 ∈ db.movies ++ [m], ¬ m2.id = m3.id := by
      intro m3 hm3 m2 hm2
      rcases List.mem_append.mp hm2 with h2 | h2
      · exact hfresh m3 (by simp [hm3]) m2 h2
      · have hm2m : m2 = m := by simpa using h2
        subst hm2m
        intro heq
        exact hnd'.1 m3 hm3 heq.symm
    calc (m :: rows).foldl insertMovie ⟨db, i, w⟩
        = rows.foldl insertMovie ⟨⟨db.movies ++ [m], db.actors⟩, i + 1, w⟩ := by
          rw [List.foldl_cons, hstep]
      _ = ⟨⟨db.movies ++ m :: rows, db.actors⟩, i + (rows.length + 1), w⟩ := by
          rw [ih _ _ _ hnd2 hfresh2]
          simp [Nat.add_comm, Nat.add_assoc, Nat.add_left_comm]
      _ = ⟨⟨db.movies ++ m :: rows, db.actors⟩, i + (m :: rows).length, w⟩ := by
          simp

theorem foldl_insertActor_fresh :
    ∀ (rows : List ActorRow) (db : DB) (i w : Nat),
      (rows.map (fun a => a.id)).Nodup →
      (∀ a ∈ rows, ∀ a2 ∈ db.actors, ¬ a2.id = a.id) →
      rows.foldl insertActor ⟨db, i, w⟩ =
        ⟨⟨db.movies, db.actors ++ rows⟩, i + rows.length, w⟩ := by
  intro rows
  induction rows with
  | nil => intro db i w _ _; simp
  | cons a rows ih =>
    intro db i w hnd hfresh
    have hany : db.actors.any (fun a2 => a2.id == a.id) = false := by
      simp only [List.any_eq_false]
      intro a2 ha2
      simpa using hfresh a (by simp) a2 ha2
    have hstep : insertActor ⟨db, i, w⟩ a =
        ⟨⟨db.movies, db.actors ++ [a]⟩, i + 1, w⟩ := by
      simp [insertActor, hany]
    have hnd' : (∀ x ∈ rows, ¬ x.id = a.id) ∧
        (rows.map (fun a => a.id)).Nodup := by simpa using hnd
    have hnd2 := hnd'.2
    have hfresh2 : ∀ a3 ∈ rows, ∀ a2 ∈ db.actors ++ [a], ¬ a2.id = a3.id := by
      intro a3 ha3 a2 ha2
      rcases List.mem_append.mp ha2 with h2 | h2
      · exact hfresh a3 (by simp [ha3]) a2 h2
      · have ha2a : a2 = a := by simpa using h2
        subst ha2a
        intro heq
        exact hnd'.1 a3 ha3 heq.symm
    calc (a :: rows).foldl insertActor ⟨db, i, w⟩
        = rows.foldl insertActor ⟨⟨db.movies, db.actors ++ [a]⟩, i + 1, w⟩ := by
          rw [List.foldl_cons, hstep]
      _ = ⟨⟨db.movies, db.actors ++ a :: rows⟩, i + (rows.length + 1), w⟩ := by
          rw [ih _ _ _ hnd2 hfresh2]
          simp [Nat.add_comm, Nat.add_assoc, Nat.add_left_comm]
      _ = ⟨⟨db.movies, db.actors ++ a :: rows⟩, i + (a :: rows).length, w⟩ := by
          simp

/-- A list of statements that all parse extracts exactly its list of rows. -/
theorem filterMap_of_map_some {α : Type} {f : List Char → Option α}
    {stmts : List (List Char)} {rows : List α}
    (h : stmts.map f = rows.map some) : stmts.filterMap f = rows := by
  induction stmts generalizing rows with
  | nil =>
    cases rows with
    | nil => rfl
    | cons r rows => simp at h
  | cons s stmts ih =>
    cases rows with
    | nil => simp at h
    | cons r rows =>
      simp only [List.map_cons, List.cons.injEq] at h
      simp [List.filterMap_cons, h.1, ih h.2]

/-! ### C1 -/

def c1MovieStmt : List Char :=
  "INSERT INTO movies VALUES(1,'tt0000001','Real Movie','Some Director',2000,'PG','Drama',100,'USA','English',7.5,100,60.0)".data

/-- An actor statement whose `movie_id` (999) matches no inserted movie. -/
def c1ActorStmt : List Char :=
  "INSERT INTO actors VALUES(1,999,'nm0000001','Ghost Actor')".data

def c1FS : FS := ⟨DB.empty, some [c1ActorStmt], some [c1MovieStmt]⟩

/-- C1: false of the code.  An actor statement whose movie identifier matches
no inserted movie is NOT dropped: the code never enables SQLite foreign-key
enforcement, so the dangling row is stored, no warning is emitted, and the
foreign-key invariant fails on the actors table after loading. -/
theorem c1_dangling_actor_is_stored :
    (MovieDatabaseUtility.init c1FS).2 = Except.ok ()
    ∧ (MovieDatabaseUtility.init c1FS).1.dbFile.actors =
        [⟨1, 999, "nm0000001", "Ghost Actor"⟩]
    ∧ ((MovieDatabaseUtility.init c1FS).1.dbFile.movies.all
        (fun m => !(m.id == 999))) = true
    ∧ (insert_actors [c1ActorStmt]
        (insert_movies [c1MovieStmt] DB.empty).db).warnings = 0 :=
  ⟨rfl, rfl, rfl, rfl⟩

/-! ### C2 -/

/-- C2: inserting two well-formed movie statements with the same identifier
appends only the first row (unchanged), counts one insertion, and emits one
warning for the dropped second row. -/
theorem c2_duplicate_movie_id (s1 s2 : List Char) (m1 m2 : MovieRow) (db : DB)
    (h1 : parseMovieStmt s1 = some m1) (h2 : parseMovieStmt s2 = some m2)
    (hid : m2.id = m1.id) (hfresh : ∀ m ∈ db.movies, ¬ m.id = m1.id) :
    insert_movies [s1, s2] db = ⟨⟨db.movies ++ [m1], db.actors⟩, 1, 1⟩
    ∧ (insert_movies [s1, s2] db).db.movies.length = db.movies.length + 1 := by
  have hfm : [s1, s2].filterMap parseMovieStmt = [m1, m2] := by
    simp [List.filterMap_cons, h1, h2]
  have hany1 : db.movies.any (fun x => x.id == m1.id) = false := by
    simp only [List.any_eq_false]
    intro x hx
    simpa using hfresh x hx
  have hstep1 : insertMovie ⟨db, 0, 0⟩ m1 =
      ⟨⟨db.movies ++ [m1], db.actors⟩, 1, 0⟩ := by
    simp [insertMovie, hany1]
  have hstep2 : insertMovie ⟨⟨db.movies ++ [m1], db.actors⟩, 1, 0⟩ m2 =
      ⟨⟨db.movies ++ [m1], db.actors⟩, 1, 1⟩ := by
    have hany2 : (db.movies ++ [m1]).any (fun x => x.id == m2.id) = true := by
      simp [hid]
    simp [insertMovie, hany2]
  have hmain : insert_movies [s1, s2] db =
      ⟨⟨db.movies ++ [m1], db.actors⟩, 1, 1⟩ := by
    unfold insert_movies
    rw [hfm]
    rw [List.foldl_cons, hstep1, List.foldl_cons, hstep2, List.foldl_nil]
  exact ⟨hmain, by rw [hmain]; simp⟩

def c2S1 : List Char :=
  "INSERT INTO movies VALUES(5,'tt1','First','D1',1999,'PG','Drama',90,'USA','English',8.0,10,50.0)".data

def c2S2 : List Char :=
  "INSERT INTO movies VALUES(5,'tt2','Second','D2',2001,'R','Action',95,'USA','English',7.0,20,40.0)".data

def c2Row : MovieRow :=
  ⟨5, "tt1", "First", "D1", 1999, "PG", "Drama", 90, "USA", "English", 8, 10, 50⟩

theorem c2_witness :
    insert_movies [c2S1, c2S2] DB.empty = ⟨⟨[c2Row], []⟩, 1, 1⟩
    ∧ (insert_movies [c2S1, c2S2] DB.empty).db.movies.length =
        DB.empty.movies.length + 1 :=
  c2_duplicate_movie_id c2S1 c2S2 c2Row
    ⟨5, "tt2", "Second", "D2", 2001, "R", "Action", 95, "USA", "English", 7, 20, 40⟩
    DB.empty (by with_unfolding_all rfl) (by with_unfolding_all rfl) rfl
    (by intro m hm; cases hm)

/-! ### C3 -/

/-- C3: N well-formed movie statements and M well-formed actor statements,
all identifiers distinct and every actor referencing an inserted movie: after
`__init__` the movie count is N and the actor count is M (and no error is
raised). -/
theorem c3_counts (prev : DB) (ms as : List (List Char))
    (mrows : List MovieRow) (arows : List ActorRow)
    (hm : ms.map parseMovieStmt = mrows.map some)
    (ha : as.map parseActorStmt = arows.map some)
    (hmn : (mrows.map (fun m => m.id)).Nodup)
    (han : (arows.map (fun a => a.id)).Nodup)
    (hfk : ∀ a ∈ arows, ∃ m ∈ mrows, m.id = a.movie_id) :
    (MovieDatabaseUtility.init ⟨prev, some as, some ms⟩).2 = Except.ok ()
    ∧ (MovieDatabaseUtility.init
        ⟨prev, some as, some ms⟩).1.dbFile.movies.length = ms.length
    ∧ (MovieDatabaseUtility.init
        ⟨prev, some as, some ms⟩).1.dbFile.actors.length = as.length := by
  have hlm : mrows.length = ms.length := by
    have := congrArg List.length hm
    simpa using this.symm
  have hla : arows.length = as.length := by
    have := congrArg List.length ha
    simpa using this.symm
  have e1 : insert_movies ms DB.empty = ⟨⟨mrows, []⟩, mrows.length, 0⟩ := by
    unfold insert_movies
    rw [filterMap_of_map_some hm]
    have := foldl_insertMovie_fresh mrows DB.empty 0 0 hmn
      (by intro m _ m2 hm2; cases hm2)
    simpa [DB.empty] using this
  have e2 : insert_actors as ⟨mrows, []⟩ = ⟨⟨mrows, arows⟩, arows.length, 0⟩ := by
    unfold insert_actors
    rw [filterMap_of_map_some ha]
    have := foldl_insertActor_fresh arows ⟨mrows, []⟩ 0 0 han
      (by intro a _ a2 ha2; cases ha2)
    simpa using this
  have hdb : (MovieDatabaseUtility.init ⟨prev, some as, some ms⟩).1.dbFile =
      ⟨mrows, arows⟩ := by
    have h1 : (insert_movies ms DB.empty).db = ⟨mrows, []⟩ := by rw [e1]
    calc (MovieDatabaseUtility.init ⟨prev, some as, some ms⟩).1.dbFile
        = (insert_actors as (insert_movies ms DB.empty).db).db := rfl
      _ = (insert_actors as ⟨mrows, []⟩).db := by rw [h1]
      _ = ⟨mrows, arows⟩ := by rw [e2]
  refine ⟨rfl, ?_, ?_⟩
  · rw [hdb]
    exact hlm
  · rw [hdb]
    exact hla

def c3Movies : List (List Char) :=
  ["INSERT INTO movies VALUES(1,'tt1','A','D1',1999,'PG','Drama',90,'USA','English',8.0,10,50.0)".data,
   "INSERT INTO movies VALUES(2,'tt2','B','D2',2001,'R','Action',95,'USA','English',7.0,20,40.0)".data]

def c3Actors : List (List Char) :=
  ["INSERT INTO actors VALUES(1,1,'nm1','Alice Alpha')".data,
   "INSERT INTO actors VALUES(2,1,'nm2','Bob Beta')".data,
   "INSERT INTO actors VALUES(3,2,'nm3','Carol Gamma')".data]

theorem c3_witness :
    (MovieDatabaseUtility.init ⟨DB.empty, some c3Actors, some c3Movies⟩).2 =
      Except.ok ()
    ∧ (MovieDatabaseUtility.init
        ⟨DB.empty, some c3Actors, some c3Movies⟩).1.dbFile.movies.length =
        c3Movies.length
    ∧ (MovieDatabaseUtility.init
        ⟨DB.empty, some c3Actors, some c3Movies⟩).1.dbFile.actors.length =
        c3Actors.length :=
  c3_counts DB.empty c3Movies c3Actors
    [⟨1, "tt1", "A", "D1", 1999, "PG", "Drama", 90, "USA", "English", 8, 10, 50⟩,
     ⟨2, "tt2", "B", "D2", 2001, "R", "Action", 95, "USA", "English", 7, 20, 40⟩]
    [⟨1, 1, "nm1", "Alice Alpha"⟩, ⟨2, 1, "nm2", "Bob Beta"⟩,
     ⟨3, 2, "nm3", "Carol Gamma"⟩]
    (by with_unfolding_all rfl) (by with_unfolding_all rfl) (by decide)
    (by decide) (by decide)

/-! ### C7 -/

/-- C7: every query on the empty database returns an empty or zero-valued
result instead of raising: `get_all_stats` gives zero counts and zero
averages, `get_longest_running_movie` (and the other single-row and list
queries) give the empty result. -/
theorem c7_empty_queries :
    get_all_stats DB.empty =
      { total_movies := 0, total_actors := 0, average_runtime := 0,
        average_imdb_score := 0, rating_distribution := [],
        year_min := none, year_max := none }
    ∧ get_longest_running_movie DB.empty = none
    ∧ get_movie_with_most_actors DB.empty = none
    ∧ (∀ n : Nat, get_top_movies_by_rating_breakdown DB.empty n = none)
    ∧ (∀ d : String, query_movies_by_director DB.empty d = [])
    ∧ (∀ r : String, query_movies_by_rating DB.empty r = []) := by
  refine ⟨rfl, rfl, rfl, ?_, ?_, ?_⟩
  · intro n
    simp [get_top_movies_by_rating_breakdown, topByScore, DB.empty,
          List.insertionSort]
  · intro d
    simp [query_movies_by_director, DB.empty, List.insertionSort]
  · intro r
    simp [query_movies_by_rating, DB.empty, List.insertionSort]

/-! ### C4 -/

def c4Row90 : MovieRow :=
  ⟨1, "tt1", "Short", "D1", 1999, "PG", "Drama", 90, "USA", "English", 8, 10, 50⟩

def c4Row200 : MovieRow :=
  ⟨2, "tt2", "Long", "D2", 2001, "R", "Action", 200, "USA", "English", 7, 20, 40⟩

def c4Row45 : MovieRow :=
  ⟨3, "tt3", "Tiny", "D3", 2003, "G", "Comedy", 45, "USA", "English", 6, 30, 30⟩

def c4Db : DB := ⟨[c4Row90, c4Row200, c4Row45], []⟩

/-- C4: on a non-empty movies table `get_longest_running_movie` returns one
stored movie whose runtime is maximal; on runtimes [90, 200, 45] it returns
the 200-runtime movie. -/
theorem c4_longest_running :
    (∀ db : DB, db.movies ≠ [] →
      ∃ m ∈ db.movies,
        get_longest_running_movie db =
          some ⟨m.title, m.runtime, m.year, m.director, m.imdb_score,
                actorCount db m, m⟩
        ∧ ∀ x ∈ db.movies, x.runtime ≤ m.runtime)
    ∧ get_longest_running_movie c4Db =
        some ⟨"Long", 200, 2001, "D2", 7, 0, c4Row200⟩ := by
  constructor
  · intro db hne
    obtain ⟨m, hm⟩ := insertionSort_head_exists byRuntimeDesc hne
    obtain ⟨hmem, hmax⟩ := head_insertionSort_max byRuntimeDesc hm
    refine ⟨m, hmem, ?_, ?_⟩
    · unfold get_longest_running_movie
      rw [hm]
    · intro x hx
      exact hmax x hx
  · decide

theorem c4_witness :
    ∃ m ∈ c4Db.movies,
      get_longest_running_movie c4Db =
        some ⟨m.title, m.runtime, m.year, m.director, m.imdb_score,
              actorCount c4Db m, m⟩
      ∧ ∀ x ∈ c4Db.movies, x.runtime ≤ m.runtime :=
  c4_longest_running.1 c4Db (by decide)

/-! ### C5 -/

def c5Row1 : MovieRow :=
  ⟨1, "tt1", "No Cast", "D1", 1999, "PG", "Drama", 90, "USA", "English", 8, 10, 50⟩

def c5Row2 : MovieRow :=
  ⟨2, "tt2", "Big Cast", "D2", 2001, "R", "Action", 95, "USA", "English", 7, 20, 40⟩

def c5Db : DB :=
  ⟨[c5Row1, c5Row2],
   [⟨11, 2, "nm11", "Charlie"⟩, ⟨12, 2, "nm12", "Alice"⟩, ⟨13, 2, "nm13", "Bob"⟩]⟩

/-- C5: on a non-empty movies table `get_movie_with_most_actors` returns one
stored movie with a maximal count of matching actor rows (zero counted for
movies with no actors), together with all of that movie's actors sorted by
name; between a 0-actor and a 3-actor movie it picks the latter, with the
3 names alphabetical. -/
theorem c5_most_actors :
    (∀ db : DB, db.movies ≠ [] →
      ∃ m ∈ db.movies,
        get_movie_with_most_actors db =
          some ⟨m.title, actorCount db m, m.year, m.director, m.imdb_score,
                List.insertionSort byNameAsc (actorsOf db m.id), m⟩
        ∧ (∀ x ∈ db.movies, actorCount db x ≤ actorCount db m)
        ∧ List.Sorted byNameAsc
            (List.insertionSort byNameAsc (actorsOf db m.id))
        ∧ List.Perm (List.insertionSort byNameAsc (actorsOf db m.id))
            (actorsOf db m.id))
    ∧ get_movie_with_most_actors c5Db =
        some ⟨"Big Cast", 3, 2001, "D2", 7,
              [⟨12, "nm12", "Alice"⟩, ⟨13, "nm13", "Bob"⟩, ⟨11, "nm11", "Charlie"⟩],
              c5Row2⟩ := by
  constructor
  · intro db hne
    obtain ⟨m, hm⟩ := insertionSort_head_exists (byCountDesc db) hne
    obtain ⟨hmem, hmax⟩ := head_insertionSort_max (byCountDesc db) hm
    refine ⟨m, hmem, ?_, ?_, ?_, ?_⟩
    · unfold get_movie_with_most_actors
      rw [hm]
    · intro x hx
      exact hmax x hx
    · exact List.sorted_insertionSort byNameAsc (actorsOf db m.id)
    · exact List.perm_insertionSort byNameAsc (actorsOf db m.id)
  · decide

theorem c5_witness :
    ∃ m ∈ c5Db.movies,
      get_movie_with_most_actors c5Db =
        some ⟨m.title, actorCount c5Db m, m.year, m.director, m.imdb_score,
              List.insertionSort byNameAsc (actorsOf c5Db m.id), m⟩
      ∧ (∀ x ∈ c5Db.movies, actorCount c5Db x ≤ actorCount c5Db m)
      ∧ List.Sorted byNameAsc
          (List.insertionSort byNameAsc (actorsOf c5Db m.id))
      ∧ List.Perm (List.insertionSort byNameAsc (actorsOf c5Db m.id))
          (actorsOf c5Db m.id) :=
  c5_most_actors.1 c5Db (by decide)

/-! ### C6 -/

theorem lookupKey_bumpDist (d : List (String × Nat)) (k r : String) :
    lookupKey (bumpDist d k) r =
      if k = r then some ((lookupKey d r).getD 0 + 1) else lookupKey d r := by
  induction d with
  | nil =>
    by_cases h : k = r <;> simp [bumpDist, lookupKey, h]
  | cons a rest ih =>
    obtain ⟨ak, an⟩ := a
    by_cases h1 : ak = k
    · subst h1
      by_cases h2 : ak = r
      · subst h2
        simp [bumpDist, lookupKey]
      · simp [bumpDist, lookupKey, h2]
    · by_cases h2 : ak = r
      · subst h2
        have hk : ¬ k = ak := fun h => h1 h.symm
        simp [bumpDist, lookupKey, h1, hk]
      · simp [bumpDist, lookupKey, h1, h2, ih]

theorem lookupKey_bumpCat (d : List (String × List MovieSummary)) (k r : String)
    (s : MovieSummary) :
    lookupKey (bumpCat d k s) r =
      if k = r then some ((lookupKey d r).getD [] ++ [s])
      else lookupKey d r := by
  induction d with
  | nil =>
    by_cases h : k = r <;> simp [bumpCat, lookupKey, h]
  | cons a rest ih =>
    obtain ⟨ak, av⟩ := a
    by_cases h1 : ak = k
    · subst h1
      by_cases h2 : ak = r
      · subst h2
        simp [bumpCat, lookupKey]
      · simp [bumpCat, lookupKey, h2]
    · by_cases h2 : ak = r
      · subst h2
        have hk : ¬ k = ak := fun h => h1 h.symm
        simp [bumpCat, lookupKey, h1, hk]
      · simp [bumpCat, lookupKey, h1, h2, ih]

theorem lookupKey_foldl_bumpDist :
    ∀ (tops : List MovieRow) (d : List (String × Nat)) (r : String),
      lookupKey (tops.foldl (fun d m => bumpDist d m.rating) d) r =
        match lookupKey d r with
        | some n => some (n + (tops.filter (fun m => m.rating == r)).length)
        | none =>
          if (tops.filter (fun m => m.rating == r)).length = 0 then none
          else some (tops.filter (fun m => m.rating == r)).length := by
  intro tops
  induction tops with
  | nil =>
    intro d r
    cases hd : lookupKey d r <;> simp [hd]
  | cons m tops ih =>
    intro d r
    rw [List.foldl_cons, ih]
    by_cases hr : m.rating = r
    · rw [lookupKey_bumpDist, if_pos hr]
      cases hd : lookupKey d r with
      | none => simp [List.filter_cons, hr, hd, Nat.add_comm]
      | some n => simp [List.filter_cons, hr, hd, Nat.add_assoc, Nat.add_comm]
    · rw [lookupKey_bumpDist, if_neg hr]
      have hrb : (m.rating == r) = false := by
        simpa using hr
      cases hd : lookupKey d r <;> simp [List.filter_cons, hrb, hd]

theorem lookupKey_foldl_bumpCat (db : DB) :
    ∀ (tops : List MovieRow) (d : List (String × List MovieSummary)) (r : String),
      lookupKey
          (tops.foldl (fun d m => bumpCat d m.rating (summaryOf db m)) d) r =
        match lookupKey d r with
        | some v =>
          some (v ++ (tops.filter (fun m => m.rating == r)).map (summaryOf db))
        | none =>
          if (tops.filter (fun m => m.rating == r)).length = 0 then none
          else
            some ((tops.filter (fun m => m.rating == r)).map (summaryOf db)) := by
  intro tops
  induction tops with
  | nil =>
    intro d r
    cases hd : lookupKey d r <;> simp [hd]
  | cons m tops ih =>
    intro d r
    rw [List.foldl_cons, ih]
    by_cases hr : m.rating = r
    · rw [lookupKey_bumpCat, if_pos hr]
      cases hd : lookupKey d r with
      | none => simp [List.filter_cons, hr, hd]
      | some v => simp [List.filter_cons, hr, hd]
    · rw [lookupKey_bumpCat, if_neg hr]
      have hrb : (m.rating == r) = false := by
        simpa using hr
      cases hd : lookupKey d r <;> simp [List.filter_cons, hrb, hd]

def halfSeventeen : Rat := ⟨17, 2, by decide, by decide⟩

def c6Row1 : MovieRow :=
  ⟨1, "tt1", "Nine", "D1", 1999, "PG", "Drama", 90, "USA", "English", 9, 10, 50⟩

def c6Row2 : MovieRow :=
  ⟨2, "tt2", "EightHalfA", "D2", 2001, "PG", "Action", 95, "USA", "English",
   halfSeventeen, 20, 40⟩

def c6Row3 : MovieRow :=
  ⟨3, "tt3", "EightHalfB", "D3", 2003, "R", "Comedy", 100, "USA", "English",
   halfSeventeen, 30, 30⟩

def c6Db : DB := ⟨[c6Row1, c6Row2, c6Row3], []⟩

/-- C6 as stated is false at N = 0: a non-empty table with `top_n = 0` selects
zero movies and the code then returns the bare empty dict — which carries no
rating-to-summaries mapping and no per-rating count at all — rather than a
grouped result with zero movies. -/
theorem c6_counterexample :
    c6Db.movies ≠ [] ∧ get_top_movies_by_rating_breakdown c6Db 0 = none := by
  constructor
  · simp [c6Db]
  · rfl

/-- C6 (amended to N ≥ 1): `get_top_movies_by_rating_breakdown` selects the
`min N (#movies)` movies of highest audience score (every selected score is
at least every unselected one; ties arbitrary) and returns them grouped by
rating: looking a rating up in `rating_distribution` gives the number of
selected movies holding it, and in `rating_categories` the list of their
summaries, in score order; absent ratings have no entry.  The concrete
scores [9, 8.5, 8.5] with ratings [PG, PG, R] at N = 3 give the distribution
PG ↦ 2, R ↦ 1. -/
theorem c6_top_breakdown :
    (∀ (db : DB) (n : Nat), db.movies ≠ [] → 1 ≤ n →
      get_top_movies_by_rating_breakdown db n =
        some ⟨(topByScore db n).length, ratingCats db (topByScore db n),
              ratingDist (topByScore db n)⟩
      ∧ (topByScore db n).length = min n db.movies.length
      ∧ List.Sorted byScoreDesc (topByScore db n)
      ∧ (∃ rest, List.Perm (topByScore db n ++ rest) db.movies
          ∧ ∀ x ∈ topByScore db n, ∀ y ∈ rest, y.imdb_score ≤ x.imdb_score)
      ∧ (∀ r, lookupKey (ratingDist (topByScore db n)) r =
          (if ((topByScore db n).filter (fun m => m.rating == r)).length = 0
           then none
           else some ((topByScore db n).filter
                  (fun m => m.rating == r)).length))
      ∧ (∀ r, lookupKey (ratingCats db (topByScore db n)) r =
          (if ((topByScore db n).filter (fun m => m.rating == r)).length = 0
           then none
           else some (((topByScore db n).filter
                  (fun m => m.rating == r)).map (summaryOf db)))))
    ∧ get_top_movies_by_rating_breakdown c6Db 3 =
        some ⟨3,
          [("PG", [⟨"Nine", 9, 1999, "D1", 0⟩,
                   ⟨"EightHalfA", halfSeventeen, 2001, "D2", 0⟩]),
           ("R", [⟨"EightHalfB", halfSeventeen, 2003, "D3", 0⟩])],
          [("PG", 2), ("R", 1)]⟩ := by
  constructor
  · intro db n hne hn
    have hperm := List.perm_insertionSort byScoreDesc db.movies
    have hsorted := List.sorted_insertionSort byScoreDesc db.movies
    have hlen : (topByScore db n).length = min n db.movies.length := by
      unfold topByScore
      rw [List.length_take, hperm.length_eq]
    have hpos : 0 < db.movies.length := by
      cases hm : db.movies with
      | nil => exact absurd hm hne
      | cons a t => simp [hm]
    have hne2 : (topByScore db n).length ≠ 0 := by
      rw [hlen]
      have : 0 < min n db.movies.length := lt_min (by omega) hpos
      omega
    have hempty : (topByScore db n).isEmpty = false := by
      cases ht : topByScore db n with
      | nil => exact absurd (by rw [ht]; rfl) hne2
      | cons a t => rfl
    refine ⟨?_, hlen, ?_, ?_, ?_, ?_⟩
    · simp [get_top_movies_by_rating_breakdown, hempty]
    · exact hsorted.sublist
        (List.take_sublist n (List.insertionSort byScoreDesc db.movies))
    · refine ⟨(List.insertionSort byScoreDesc db.movies).drop n, ?_, ?_⟩
      · rw [show topByScore db n ++
              (List.insertionSort byScoreDesc db.movies).drop n =
              List.insertionSort byScoreDesc db.movies from
            List.take_append_drop n _]
        exact hperm
      · intro x hx y hy
        have hsplit := hsorted
        rw [← List.take_append_drop n
              (List.insertionSort byScoreDesc db.movies)] at hsplit
        exact (List.pairwise_append.mp hsplit).2.2 x hx y hy
    · intro r
      have := lookupKey_foldl_bumpDist (topByScore db n) [] r
      simpa [ratingDist, lookupKey] using this
    · intro r
      have := lookupKey_foldl_bumpCat db (topByScore db n) [] r
      simpa [ratingCats, lookupKey] using this
  · decide

theorem c6_witness :
    get_top_movies_by_rating_breakdown c6Db 3 =
      some ⟨(topByScore c6Db 3).length, ratingCats c6Db (topByScore c6Db 3),
            ratingDist (topByScore c6Db 3)⟩
    ∧ (topByScore c6Db 3).length = min 3 c6Db.movies.length
    ∧ List.Sorted byScoreDesc (topByScore c6Db 3)
    ∧ (∃ rest, List.Perm (topByScore c6Db 3 ++ rest) c6Db.movies
        ∧ ∀ x ∈ topByScore c6Db 3, ∀ y ∈ rest, y.imdb_score ≤ x.imdb_score)
    ∧ (∀ r, lookupKey (ratingDist (topByScore c6Db 3)) r =
        (if ((topByScore c6Db 3).filter (fun m => m.rating == r)).length = 0
         then none
         else some ((topByScore c6Db 3).filter
                (fun m => m.rating == r)).length))
    ∧ (∀ r, lookupKey (ratingCats c6Db (topByScore c6Db 3)) r =
        (if ((topByScore c6Db 3).filter (fun m => m.rating == r)).length = 0
         then none
         else some (((topByScore c6Db 3).filter
                (fun m => m.rating == r)).map (summaryOf c6Db)))) :=
  c6_top_breakdown.1 c6Db 3 (by simp [c6Db]) (by omega)

/-! ### C8 -/

/-- Case-sensitive "starts with" on character lists. -/
def startsWithSeg : List Char → List Char → Bool
  | [], _ => true
  | _ :: _, [] => false
  | c :: l, d :: r => (c = d) && startsWithSeg l r

/-- Case-sensitive substring containment, the claim's literal reading of
"director name contains the given substring". -/
def containsSeg (needle hay : List Char) : Bool :=
  match hay with
  | [] => needle.isEmpty
  | _ :: t => startsWithSeg needle hay || containsSeg needle t

theorem startsWithSeg_iff :
    ∀ (n h : List Char), startsWithSeg n h = true ↔ ∃ w, h = n ++ w := by
  intro n
  induction n with
  | nil =>
    intro h
    constructor
    · intro _
      exact ⟨h, rfl⟩
    · intro _
      rfl
  | cons c n ih =>
    intro h
    cases h with
    | nil =>
      constructor
      · intro hh
        exact Bool.noConfusion hh
      · rintro ⟨w, hw⟩
        exact List.noConfusion hw
    | cons d t =>
      have he : startsWithSeg (c :: n) (d :: t) =
          ((c = d) && startsWithSeg n t) := rfl
      rw [he, Bool.and_eq_true]
      constructor
      · rintro ⟨h1, h2⟩
        obtain ⟨w, hw⟩ := (ih t).mp h2
        exact ⟨w, by simp [of_decide_eq_true h1, hw]⟩
      · rintro ⟨w, hw⟩
        obtain ⟨hdc, htw⟩ : d = c ∧ t = n ++ w := by simpa using hw
        subst hdc
        exact ⟨by simp, (ih t).mpr ⟨w, htw⟩⟩

theorem containsSeg_iff :
    ∀ (n h : List Char), containsSeg n h = true ↔ ∃ u w, h = u ++ n ++ w := by
  intro n h
  induction h with
  | nil =>
    constructor
    · intro he
      have hn : n = [] := List.isEmpty_iff.mp he
      exact ⟨[], [], by simp [hn]⟩
    · rintro ⟨u, w, hw⟩
      have h1 := List.append_eq_nil.mp hw.symm
      have h2 := List.append_eq_nil.mp h1.1
      show n.isEmpty = true
      simp [h2.2]
  | cons d t ih =>
    have he : containsSeg n (d :: t) =
        (startsWithSeg n (d :: t) || containsSeg n t) := rfl
    rw [he, Bool.or_eq_true]
    constructor
    · intro he2
      rcases he2 with h1 | h1
      · obtain ⟨w, hw⟩ := (startsWithSeg_iff n (d :: t)).mp h1
        exact ⟨[], w, by simpa using hw⟩
      · obtain ⟨u, w, hw⟩ := ih.mp h1
        exact ⟨d :: u, w, by simp [hw]⟩
    · rintro ⟨u, w, hw⟩
      cases u with
      | nil =>
        exact Or.inl ((startsWithSeg_iff n (d :: t)).mpr ⟨w, by simpa using hw⟩)
      | cons e u =>
        simp only [List.cons_append, List.cons.injEq] at hw
        exact Or.inr (ih.mpr ⟨u, w, hw.2⟩)

/-- The suffixes of `s` are exactly the `v` with `s = u ++ v`. -/
theorem mem_suffixes : ∀ s t : List Char, t ∈ suffixes s ↔ ∃ u, s = u ++ t := by
  intro s
  induction s with
  | nil =>
    intro t
    constructor
    · intro h
      have ht : t = [] := by
        have he : suffixes [] = [[]] := rfl
        rw [he] at h
        simpa using h
      exact ⟨[], by simp [ht]⟩
    · rintro ⟨u, hu⟩
      have h1 := List.append_eq_nil.mp hu.symm
      have he : suffixes [] = [[]] := rfl
      rw [he]
      simp [h1.2]
  | cons d s ih =>
    intro t
    have he : suffixes (d :: s) = (d :: s) :: suffixes s := rfl
    rw [he]
    constructor
    · intro h
      rcases List.mem_cons.mp h with h1 | h1
      · exact ⟨[], by simp [h1]⟩
      · obtain ⟨u, hu⟩ := (ih t).mp h1
        exact ⟨d :: u, by simp [hu]⟩
    · rintro ⟨u, hu⟩
      cases u with
      | nil =>
        have ht : t = d :: s := by simpa using hu.symm
        simp [ht]
      | cons e u =>
        simp only [List.cons_append, List.cons.injEq] at hu
        exact List.mem_cons.mpr (Or.inr ((ih t).mpr ⟨u, hu.2⟩))

/-- Unfolding `likeMatch` at a leading `%`. -/
theorem likeMatch_pct (p s : List Char) :
    likeMatch ('%' :: p) s = (suffixes s).any (fun t => likeMatch p t) := rfl

/-- `%` alone matches every string. -/
theorem likeMatch_pct_all (s : List Char) : likeMatch ['%'] s = true := by
  rw [likeMatch_pct, List.any_eq_true]
  exact ⟨[], (mem_suffixes s []).mpr ⟨s, by simp⟩, rfl⟩

/-- Eliminating a leading `%`: it absorbs an arbitrary prefix. -/
theorem likeMatch_pct_iff (p : List Char) (s : List Char) :
    likeMatch ('%' :: p) s = true ↔
      ∃ u v, s = u ++ v ∧ likeMatch p v = true := by
  rw [likeMatch_pct, List.any_eq_true]
  constructor
  · rintro ⟨v, hv, hm⟩
    obtain ⟨u, hu⟩ := (mem_suffixes s v).mp hv
    exact ⟨u, v, hu, hm⟩
  · rintro ⟨u, v, huv, hm⟩
    exact ⟨v, (mem_suffixes s v).mpr ⟨u, huv⟩, hm⟩

/-- A wildcard-free pattern segment matches exactly a case-insensitively
equal prefix. -/
theorem likeMatch_plain_iff {p : List Char}
    (hp : ∀ c ∈ p, ¬ c = '%' ∧ ¬ c = '_') (q : List Char) :
    ∀ s : List Char,
      likeMatch (p ++ q) s = true ↔
        ∃ s1 s2, s = s1 ++ s2 ∧ s1.map lcAscii = p.map lcAscii ∧
          likeMatch q s2 = true := by
  induction p with
  | nil =>
    intro s
    constructor
    · intro h
      exact ⟨[], s, rfl, rfl, by simpa using h⟩
    · rintro ⟨s1, s2, hs, hmap, hq⟩
      have : s1 = [] := by simpa using hmap
      subst this
      simpa [hs] using hq
  | cons c p ih =>
    intro s
    have hc := hp c (by simp)
    have ihp : ∀ d ∈ p, ¬ d = '%' ∧ ¬ d = '_' := fun d hd => hp d (by simp [hd])
    cases s with
    | nil =>
      constructor
      · intro h
        simp [likeMatch, hc.1] at h
      · rintro ⟨s1, s2, hs, hmap, hq⟩
        have := List.append_eq_nil.mp hs.symm
        rw [this.1] at hmap
        simp at hmap
    | cons d s =>
      constructor
      · intro h
        have h2 : (lcAscii c = lcAscii d) ∧ likeMatch (p ++ q) s = true := by
          simpa [likeMatch, hc.1, hc.2] using h
        obtain ⟨s1, s2, hs, hmap, hq⟩ := (ih ihp s).mp h2.2
        exact ⟨d :: s1, s2, by simp [hs], by simp [hmap, h2.1], hq⟩
      · rintro ⟨s1, s2, hs, hmap, hq⟩
        cases s1 with
        | nil => simp at hmap
        | cons e s1 =>
          simp only [List.cons_append, List.cons.injEq] at hs
          simp only [List.map_cons, List.cons.injEq] at hmap
          obtain ⟨hde, hs2⟩ := hs
          subst hde
          have h1 : likeMatch (p ++ q) s = true :=
            (ih ihp s).mpr ⟨s1, s2, hs2, hmap.2, hq⟩
          simp [likeMatch, hc.1, hc.2, hmap.1, h1]

/-- `'%p%'` for wildcard-free `p` matches exactly the strings containing `p`
up to ASCII case. -/
theorem likeMatch_infix_iff {p : List Char}
    (hp : ∀ c ∈ p, ¬ c = '%' ∧ ¬ c = '_') (s : List Char) :
    likeMatch ('%' :: (p ++ ['%'])) s = true ↔
      ∃ u v w, s = u ++ v ++ w ∧ v.map lcAscii = p.map lcAscii := by
  rw [likeMatch_pct_iff]
  constructor
  · rintro ⟨u, v, huv, hv⟩
    obtain ⟨v1, v2, hv12, hmap, _⟩ := (likeMatch_plain_iff hp ['%'] v).mp hv
    exact ⟨u, v1, v2, by simp [huv, hv12], hmap⟩
  · rintro ⟨u, v, w, hs, hmap⟩
    refine ⟨u, v ++ w, by simp [hs], ?_⟩
    exact (likeMatch_plain_iff hp ['%'] (v ++ w)).mpr
      ⟨v, w, rfl, hmap, likeMatch_pct_all w⟩

def c8Row : MovieRow :=
  ⟨1, "tt1", "Inception", "CHRISTOPHER NOLAN", 2010, "PG-13", "Sci-Fi", 148,
   "USA", "English", 9, 100, 74⟩

def c8Db : DB := ⟨[c8Row], []⟩

/-- C8 as stated is false: searching for the substring "nolan" returns the
movie directed by "CHRISTOPHER NOLAN" although that director name does not
contain "nolan" — SQLite's `LIKE` compares ASCII letters case-insensitively,
so the result set is not "exactly the movies whose director name contains the
given substring". -/
theorem c8_counterexample :
    (⟨c8Row, 0⟩ : QueryRow) ∈ query_movies_by_director c8Db "nolan"
    ∧ ¬ ∃ u w, c8Row.director.data = u ++ "nolan".data ++ w := by
  constructor
  · decide
  · intro hex
    have h1 : containsSeg "nolan".data c8Row.director.data = true :=
      (containsSeg_iff _ _).mpr hex
    have h2 : containsSeg "nolan".data c8Row.director.data = false := by decide
    rw [h1] at h2
    cases h2

def c8nRow : MovieRow :=
  ⟨1, "tt1", "Memento", "Christopher Nolan", 2000, "R", "Thriller", 113,
   "USA", "English", 8, 100, 80⟩

def c8nDb : DB := ⟨[c8nRow], []⟩

/-- C8 (amended): for a search string without the `LIKE` wildcards `%`/`_`,
`query_movies_by_director` returns exactly the movies whose director name
contains the search string up to ASCII case (SQLite's default `LIKE`
folding), each with its actor count; `query_movies_by_rating` returns exactly
the movies whose rating equals the given value; both results are sorted by
descending audience score.  Partial names match: "Nolan" finds
"Christopher Nolan". -/
theorem c8_filtered_lookups :
    (∀ (db : DB) (dir : String),
      (∀ c ∈ dir.data, ¬ c = '%' ∧ ¬ c = '_') →
      ∀ q : QueryRow,
        q ∈ query_movies_by_director db dir ↔
          (q.row ∈ db.movies ∧ q.actors_count = actorCount db q.row ∧
           ∃ u v w, q.row.director.data = u ++ v ++ w ∧
             v.map lcAscii = dir.data.map lcAscii))
    ∧ (∀ (db : DB) (dir : String),
        List.Sorted byScoreDescQ (query_movies_by_director db dir))
    ∧ (∀ (db : DB) (rt : String) (q : QueryRow),
        q ∈ query_movies_by_rating db rt ↔
          (q.row ∈ db.movies ∧ q.row.rating = rt ∧
           q.actors_count = actorCount db q.row))
    ∧ (∀ (db : DB) (rt : String),
        List.Sorted byScoreDescQ (query_movies_by_rating db rt))
    ∧ query_movies_by_director c8nDb "Nolan" = [⟨c8nRow, 0⟩] := by
  refine ⟨?_, ?_, ?_, ?_, ?_⟩
  · intro db dir hwf q
    rw [query_movies_by_director, List.mem_insertionSort, List.mem_map]
    constructor
    · rintro ⟨m, hm, hq⟩
      have hf := List.mem_filter.mp hm
      refine ⟨by rw [← hq]; exact hf.1, by rw [← hq], ?_⟩
      have := (likeMatch_infix_iff hwf m.director.data).mp hf.2
      rw [← hq]
      exact this
    · rintro ⟨hmem, hcnt, hinf⟩
      refine ⟨q.row, List.mem_filter.mpr ⟨hmem, ?_⟩, ?_⟩
      · exact (likeMatch_infix_iff hwf q.row.director.data).mpr hinf
      · cases q with
        | mk row cnt =>
          simp at hcnt
          simp [hcnt]
  · intro db dir
    exact List.sorted_insertionSort byScoreDescQ _
  · intro db rt q
    rw [query_movies_by_rating, List.mem_insertionSort, List.mem_map]
    constructor
    · rintro ⟨m, hm, hq⟩
      have hf := List.mem_filter.mp hm
      refine ⟨by rw [← hq]; exact hf.1, ?_, by rw [← hq]⟩
      rw [← hq]
      simpa using hf.2
    · rintro ⟨hmem, hrt, hcnt⟩
      refine ⟨q.row, List.mem_filter.mpr ⟨hmem, by simpa using hrt⟩, ?_⟩
      cases q with
      | mk row cnt =>
        simp at hcnt
        simp [hcnt]
  · intro db rt
    exact List.sorted_insertionSort byScoreDescQ _
  · decide

theorem c8_witness :
    (⟨c8nRow, 0⟩ : QueryRow) ∈ query_movies_by_director c8nDb "Nolan" :=
  (c8_filtered_lookups.1 c8nDb "Nolan" (by decide) ⟨c8nRow, 0⟩).mpr
    ⟨by decide, by decide,
     "Christopher ".data, "Nolan".data, [], by decide, by decide⟩

/-! ### C9 -/

/-- C10: `__init__` drops and recreates both tables before checking that the
two input files exist, so when either is missing it raises the
file-not-found error with the storage file already reset to two empty
tables — whatever rows a previous run had stored are destroyed. -/
theorem c10_destructive_init (prev : DB) (af mf : Option (List (List Char)))
    (h : af = none ∨ mf = none) :
    (∃ msg, (MovieDatabaseUtility.init ⟨prev, af, mf⟩).2 = Except.error msg)
    ∧ (MovieDatabaseUtility.init ⟨prev, af, mf⟩).1.dbFile = DB.empty := by
  cases af with
  | none => exact ⟨⟨"actors.sql not found", rfl⟩, rfl⟩
  | some as =>
    cases mf with
    | none => exact ⟨⟨"movies.sql not found", rfl⟩, rfl⟩
    | some ms =>
      rcases h with h | h <;> simp at h

def c10Prev : DB := ⟨[c4Row90], [⟨1, 1, "nm1", "Someone"⟩]⟩

theorem c10_witness :
    (∃ msg, (MovieDatabaseUtility.init ⟨c10Prev, none, some []⟩).2 =
        Except.error msg)
    ∧ (MovieDatabaseUtility.init ⟨c10Prev, none, some []⟩).1.dbFile =
        DB.empty :=
  c10_destructive_init c10Prev none (some []) (Or.inl rfl)

end MovieDB
